import Mathlib

/-!
Shallow embedding of the Fitness Studio Booking API (FastAPI/SQLAlchemy).

Strings coming from Python are modelled as lists of Unicode code points
(`List Nat`); `str.lower` and `str.strip` are modelled for the ASCII range
that email addresses and the repository's data use.  Instants
(`datetime` values) are modelled as minutes since the epoch in UTC (`Int`).
The relational store (tables `fitness_classes` and `bookings`) is a pair of
lists; SQL `ORDER BY` is modelled by a stable insertion sort.
-/

namespace FitnessBooking

/-- Python strings as code-point sequences. -/
abbrev Str : Type := List Nat

/-- Python `str.lower` on one code point, for the ASCII range (A–Z ↦ a–z). -/
def lowerChar (n : Nat) : Nat := if 65 ≤ n ∧ n ≤ 90 then n + 32 else n

/-- Python `str.lower` (ASCII range). -/
def pyLower (s : Str) : Str := s.map lowerChar

/-- The ASCII whitespace code points removed by Python `str.strip()`:
space, tab, line feed, carriage return, vertical tab, form feed. -/
def isPySpace (n : Nat) : Bool :=
  decide (n = 32 ∨ n = 9 ∨ n = 10 ∨ n = 13 ∨ n = 11 ∨ n = 12)

/-- Python `str.strip()`: drop whitespace from both ends. -/
def pyStrip (s : Str) : Str :=
  ((s.dropWhile isPySpace).reverse.dropWhile isPySpace).reverse

/-! ## Data model (`app/models.py`) -/

/-- Row of table `fitness_classes` (`models.FitnessClass`).  `datetime_utc`
is the scheduled instant in minutes since the epoch, UTC. -/
structure FitnessClass where
  id : Nat
  name : Str
  instructor : Str
  datetime_utc : Int
  total_slots : Nat
deriving DecidableEq, Repr

/-- Row of table `bookings` (`models.Booking`). -/
structure Booking where
  id : Nat
  class_id : Nat
  client_name : Str
  client_email : Str
  booked_at : Int
deriving DecidableEq, Repr

/-- The persistent store: both tables, in insertion order. -/
structure DB where
  classes : List FitnessClass
  bookings : List Booking
deriving DecidableEq, Repr

/-- Request body of POST /book (`schemas.BookingCreate`). -/
structure BookingCreate where
  class_id : Nat
  client_name : Str
  client_email : Str
deriving DecidableEq, Repr

/-- Count `len(fitness_class.bookings)`: the bookings referencing a class. -/
def countBookingsFor (bs : List Booking) (cid : Nat) : Nat :=
  (bs.filter (fun b => decide (b.class_id = cid))).length

/-- Property `FitnessClass.available_slots`: `total_slots - len(self.bookings)`. -/
def available_slots (db : DB) (c : FitnessClass) : Int :=
  (c.total_slots : Int) - countBookingsFor db.bookings c.id

/-! ## CRUD layer (`app/crud.py`) -/

/-- Order `ORDER BY fitness_classes.datetime_utc` (ascending). -/
def classTimeLe (a b : FitnessClass) : Prop := a.datetime_utc ≤ b.datetime_utc

instance : DecidableRel classTimeLe := fun a b =>
  inferInstanceAs (Decidable (a.datetime_utc ≤ b.datetime_utc))

instance : IsTotal FitnessClass classTimeLe := ⟨fun _ _ => Int.le_total _ _⟩

instance : IsTrans FitnessClass classTimeLe := ⟨fun _ _ _ h1 h2 => le_trans h1 h2⟩

/-- Order `ORDER BY bookings.booked_at DESC` (newest first). -/
def bookedAtDesc (a b : Booking) : Prop := b.booked_at ≤ a.booked_at

instance : DecidableRel bookedAtDesc := fun a b =>
  inferInstanceAs (Decidable (b.booked_at ≤ a.booked_at))

instance : IsTotal Booking bookedAtDesc := ⟨fun a b => (Int.le_total a.booked_at b.booked_at).symm⟩

instance : IsTrans Booking bookedAtDesc := ⟨fun _ _ _ h1 h2 => le_trans h2 h1⟩

/-- Model of `crud.get_upcoming_classes`: filter `datetime_utc > now`, order ascending
by `datetime_utc`, then apply `OFFSET skip LIMIT limit`. -/
def get_upcoming_classes (db : DB) (now : Int) (skip limit : Nat) : List FitnessClass :=
  (((db.classes.filter (fun c => decide (now < c.datetime_utc))).insertionSort
    classTimeLe).drop skip).take limit

/-- Model of `crud.get_class_by_id`: `.filter(id == class_id).first()`. -/
def get_class_by_id (db : DB) (cid : Nat) : Option FitnessClass :=
  db.classes.find? (fun c => decide (c.id = cid))

/-- Model of `crud.get_bookings_by_email`: filter on exact `client_email`, newest first. -/
def get_bookings_by_email (db : DB) (email : Str) : List Booking :=
  (db.bookings.filter (fun b => decide (b.client_email = email))).insertionSort bookedAtDesc

/-- Model of `crud.check_existing_booking`: `.filter(class_id == … AND client_email == …)
.first() is not None`. -/
def check_existing_booking (db : DB) (cid : Nat) (email : Str) : Bool :=
  (db.bookings.find? (fun b => decide (b.class_id = cid ∧ b.client_email = email))).isSome

/-- The row built by `crud.create_booking` (`models.Booking(**booking.model_dump())`
with an auto-generated id and `booked_at = datetime.utcnow()`). -/
def mkBookingRow (db : DB) (data : BookingCreate) (now : Int) : Booking :=
  { id := db.bookings.length + 1, class_id := data.class_id,
    client_name := data.client_name, client_email := data.client_email,
    booked_at := now }

/-- Model of `crud.create_booking`: insert the row and return it. -/
def crud_create_booking (db : DB) (data : BookingCreate) (now : Int) : Booking × DB :=
  (mkBookingRow db data now, { db with bookings := db.bookings ++ [mkBookingRow db data now] })

/-! ## Routes (`app/api/routes.py`) -/

/-- Outcome of POST /book: the HTTPException branches of `create_booking`
(404 not found, 400 already started, 409 fully booked, 409 already booked)
or 201 with the created row. -/
inductive BookResult where
  | notFound (cid : Nat)
  | invalidState
  | fullyBooked
  | alreadyBooked
  | created (b : Booking)
deriving DecidableEq, Repr

def BookResult.isCreated : BookResult → Bool
  | .created _ => true
  | _ => false

/-- Model of `routes.create_booking`: the five steps, in source order.
Step 2 compares `fitness_class.datetime_utc < datetime.utcnow()` (strict);
step 4 lowercases the email before the duplicate check, and the same
normalized email is what step 5 stores. -/
def create_booking_route (db : DB) (now : Int) (data : BookingCreate) : BookResult × DB :=
  match get_class_by_id db data.class_id with
  | none => (.notFound data.class_id, db)
  | some c =>
    if c.datetime_utc < now then (.invalidState, db)
    else if available_slots db c ≤ 0 then (.fullyBooked, db)
    else if check_existing_booking db data.class_id (pyLower data.client_email) then
      (.alreadyBooked, db)
    else
      ((crud_create_booking db { data with client_email := pyLower data.client_email } now).1
        |> .created,
       (crud_create_booking db { data with client_email := pyLower data.client_email } now).2)

/-- Failures of GET /bookings: FastAPI's 422 for a missing required query
parameter, and the 400 raised by `validate_email_query`. -/
inductive HttpFail where
  | validationError422
  | badRequest400
deriving DecidableEq, Repr

/-- Model of `dependencies.validate_email_query`.  A missing `email` parameter is
rejected by FastAPI itself with 422 (`Query(...)` is required); an empty or
whitespace-only value hits `if not email or len(email.strip()) == 0` and
raises 400; otherwise `email.strip().lower()` is returned. -/
def validate_email_query : Option Str → Except HttpFail Str
  | none => .error .validationError422
  | some e =>
    if e = [] ∨ pyStrip e = [] then .error .badRequest400
    else .ok (pyLower (pyStrip e))

/-- Response `schemas.BookingListResponse`. -/
structure BookingListResponse where
  total : Nat
  bookings : List Booking
deriving DecidableEq, Repr

/-- Response `schemas.ClassListResponse`. -/
structure ClassListResponse where
  total : Nat
  classes : List FitnessClass
deriving DecidableEq, Repr

/-- Model of `routes.get_bookings`: validate the email parameter, lowercase once more,
query the ledger, wrap with `total=len(bookings)`. -/
def get_bookings_route (db : DB) (email : Option Str) : Except HttpFail BookingListResponse :=
  match validate_email_query email with
  | .error f => .error f
  | .ok e => .ok ⟨(get_bookings_by_email db (pyLower e)).length, get_bookings_by_email db (pyLower e)⟩

/-- Model of `routes.get_classes`: fetch the page, wrap with `total=len(classes)`. -/
def get_classes_route (db : DB) (now : Int) (skip limit : Nat) : ClassListResponse :=
  ⟨(get_upcoming_classes db now skip limit).length, get_upcoming_classes db now skip limit⟩

/-! ## Time conversion (`app/utils/timezone.py`, `app/config.py`) -/

/-- Timezone information carried by an ISO-8601-like string after
`datetime.fromisoformat`: a trailing `Z`, an explicit offset, or none. -/
inductive TzInfo where
  | z
  | offsetMin (m : Int)
  | naive
deriving DecidableEq, Repr

/-- The configured display zone `Asia/Kolkata` (`config.IST`) is UTC+05:30. -/
def IST_OFFSET_MIN : Int := 330

/-- Model of `timezone.parse_ist_string`, acting on the parsed components of the input
string: a wall-clock value (minutes) plus optional zone info.
`dt_string.replace('Z', '+00:00')` turns a `Z` suffix into the zero offset;
a naive value is localized to IST; the result is the UTC instant
(`astimezone(pytz.UTC)`). -/
def parse_ist_string (wall : Int) (tz : TzInfo) : Int :=
  match (match tz with | .z => TzInfo.offsetMin 0 | t => t) with
  | .offsetMin m => wall - m
  | _ => wall - IST_OFFSET_MIN

/-! ## Sequential runs of the create-booking workflow -/

/-- States reachable by sequential runs of POST /book, starting from a seeded
catalog (distinct primary keys, per the `id` primary-key column) with an
empty ledger. -/
inductive Reachable : DB → Prop where
  | init (classes : List FitnessClass) (hids : (classes.map FitnessClass.id).Nodup) :
      Reachable ⟨classes, []⟩
  | step (db : DB) (now : Int) (data : BookingCreate) (h : Reachable db) :
      Reachable (create_booking_route db now data).2

/-- The state invariant maintained by the workflow: primary keys of
`fitness_classes` are distinct, no class is overbooked, stored emails are
lowercase, and no two bookings share (class_id, client_email). -/
structure Inv (db : DB) : Prop where
  nodup_ids : (db.classes.map FitnessClass.id).Nodup
  capacity : ∀ c ∈ db.classes, countBookingsFor db.bookings c.id ≤ c.total_slots
  emails_norm : ∀ b ∈ db.bookings, pyLower b.client_email = b.client_email
  unique_pair : db.bookings.Pairwise
    (fun b1 b2 => ¬(b1.class_id = b2.class_id ∧ b1.client_email = b2.client_email))

/-! ## Concrete fixtures (used by witnesses and counterexamples) -/

/-- The string "A@B.com". -/
def emailAB : Str := [65, 64, 66, 46, 99, 111, 109]

/-- The string "a@b.com". -/
def emailab : Str := [97, 64, 98, 46, 99, 111, 109]

/-- A class with 2 slots scheduled at instant 100. -/
def demoClass1 : FitnessClass := ⟨1, [89], [73], 100, 2⟩

/-- A class with 5 slots scheduled at instant 50 (earlier than `demoClass1`). -/
def demoClass2 : FitnessClass := ⟨2, [90], [73], 50, 5⟩

/-- A class with a single slot scheduled at instant 100. -/
def demoClassCap1 : FitnessClass := ⟨1, [89], [73], 100, 1⟩

/-- Seeded store: one two-slot class, empty ledger. -/
def demoDB : DB := ⟨[demoClass1], []⟩

/-- Seeded store with two upcoming classes. -/
def twoDB : DB := ⟨[demoClass1, demoClass2], []⟩

/-- Seeded store: one single-slot class, empty ledger. -/
def capDB : DB := ⟨[demoClassCap1], []⟩

/-- A booking request for class 1 with client email "A@B.com". -/
def demoData : BookingCreate := ⟨1, [74], emailAB⟩

/-- State `demoDB` after one successful run of the workflow at instant 0. -/
def demoDB1 : DB := (create_booking_route demoDB 0 demoData).2

/-- State `capDB` after one successful run of the workflow at instant 0. -/
def capDB1 : DB := (create_booking_route capDB 0 demoData).2

/-- The booking row stored by that run: email lowercased to "a@b.com". -/
def demoBooking : Booking := ⟨1, 1, [74], emailab, 0⟩

/-- A store whose only class (id 1, no capacity) is scheduled at instant 0,
with one existing booking for it by "a@b.com". -/
def pastDB : DB := ⟨[⟨1, [89], [73], 0, 0⟩], [⟨1, 1, [74], emailab, 0⟩]⟩

/-- The response of GET /bookings?email=a@b.com against `demoDB1`. -/
def demoResp : BookingListResponse := ⟨1, [demoBooking]⟩

/-! ## String lemmas -/

lemma lowerChar_idem (n : Nat) : lowerChar (lowerChar n) = lowerChar n := by
  unfold lowerChar
  split
  · split <;> omega
  · rfl

lemma pyLower_idem (s : Str) : pyLower (pyLower s) = pyLower s := by
  induction s with
  | nil => rfl
  | cons a t ih =>
    simp only [pyLower, List.map_cons] at ih ⊢
    rw [lowerChar_idem]
    exact congrArg _ ih

lemma isPySpace_lowerChar (n : Nat) : isPySpace (lowerChar n) = isPySpace n := by
  unfold isPySpace lowerChar
  split
  · rw [decide_eq_decide]; omega
  · rfl

lemma pyLower_eq_nil_iff (s : Str) : pyLower s = [] ↔ s = [] := by
  simp [pyLower]

lemma dropWhile_pyLower (s : Str) :
    (pyLower s).dropWhile isPySpace = pyLower (s.dropWhile isPySpace) := by
  have hc : isPySpace ∘ lowerChar = isPySpace := funext isPySpace_lowerChar
  unfold pyLower
  rw [List.dropWhile_map, hc]

lemma reverse_pyLower (s : Str) : (pyLower s).reverse = pyLower s.reverse := by
  simp [pyLower]

lemma pyStrip_pyLower (s : Str) : pyStrip (pyLower s) = pyLower (pyStrip s) := by
  unfold pyStrip
  rw [dropWhile_pyLower, reverse_pyLower, dropWhile_pyLower, reverse_pyLower]

lemma dropWhile_of_head_false {p : Nat → Bool} {l : Str}
    (h : ∀ (hne : l ≠ []), p (l.head hne) = false) : l.dropWhile p = l := by
  cases l with
  | nil => rfl
  | cons a t =>
    have := h (by simp)
    simp at this
    simp [List.dropWhile_cons, this]

lemma dropWhile_dropWhile (p : Nat → Bool) (l : Str) :
    (l.dropWhile p).dropWhile p = l.dropWhile p := by
  apply dropWhile_of_head_false
  intro hne
  exact List.head_dropWhile_not p l hne

lemma head_false_of_dropWhile_cons {p : Nat → Bool} {s l : Str} {x : Nat}
    (h : s.dropWhile p = x :: l) : p x = false := by
  induction s with
  | nil => simp at h
  | cons a t ih =>
    rw [List.dropWhile_cons] at h
    split at h
    · exact ih h
    · rename_i hpa
      injection h with h1 _
      subst h1
      simpa using hpa

/-- Dropping leading whitespace from an already right-and-left trimmed string
changes nothing: the head of `((s.dropWhile p).reverse.dropWhile p).reverse`,
if any, is the head of `s.dropWhile p`, which does not satisfy `p`. -/
lemma dropWhile_trimmed (p : Nat → Bool) (s : Str) :
    ((s.dropWhile p).reverse.dropWhile p).reverse.dropWhile p
      = ((s.dropWhile p).reverse.dropWhile p).reverse := by
  have hsplit : (s.dropWhile p).reverse.takeWhile p ++ (s.dropWhile p).reverse.dropWhile p
      = (s.dropWhile p).reverse := List.takeWhile_append_dropWhile p _
  have ha' : s.dropWhile p
      = ((s.dropWhile p).reverse.dropWhile p).reverse
        ++ ((s.dropWhile p).reverse.takeWhile p).reverse := by
    conv_lhs => rw [← List.reverse_reverse (s.dropWhile p), ← hsplit]
    rw [List.reverse_append]
  cases hbr : ((s.dropWhile p).reverse.dropWhile p).reverse with
  | nil => simp
  | cons x xs =>
    rw [hbr] at ha'
    have hpx : p x = false := head_false_of_dropWhile_cons (by simpa using ha')
    rw [List.dropWhile_cons, hpx]
    simp

lemma pyStrip_idem (s : Str) : pyStrip (pyStrip s) = pyStrip s := by
  unfold pyStrip
  simp only [dropWhile_trimmed, List.reverse_reverse, dropWhile_dropWhile]

lemma dropWhile_append_all {p : Nat → Bool} {ws : Str} (h : ∀ c ∈ ws, p c = true)
    (l : Str) : (ws ++ l).dropWhile p = l.dropWhile p :=
  List.dropWhile_append_of_pos h

lemma pyStrip_pad (ws1 ws2 e : Str) (h1 : ∀ c ∈ ws1, isPySpace c = true)
    (h2 : ∀ c ∈ ws2, isPySpace c = true) :
    pyStrip (ws1 ++ e ++ ws2) = pyStrip e := by
  unfold pyStrip
  rw [List.append_assoc, dropWhile_append_all h1]
  rw [List.dropWhile_append]
  split
  · rename_i hemp
    simp only [List.isEmpty_iff] at hemp
    rw [hemp]
    have : ws2.dropWhile isPySpace = [] := by
      have := dropWhile_append_all h2 ([] : Str)
      simpa using this
    rw [this]
  · rw [List.reverse_append, dropWhile_append_all (by intro c hc; exact h2 _ (by simpa using hc))]

/-! ## Workflow lemmas -/

lemma countBookingsFor_append (bs : List Booking) (b : Booking) (cid : Nat) :
    countBookingsFor (bs ++ [b]) cid
      = countBookingsFor bs cid + (if b.class_id = cid then 1 else 0) := by
  unfold countBookingsFor
  rw [List.filter_append, List.length_append]
  by_cases h : b.class_id = cid <;> simp [h]

lemma get_class_by_id_some {db : DB} {cid : Nat} {c : FitnessClass}
    (h : get_class_by_id db cid = some c) : c ∈ db.classes ∧ c.id = cid := by
  unfold get_class_by_id at h
  refine ⟨List.mem_of_find?_eq_some h, ?_⟩
  have := List.find?_some h
  simpa using this

lemma check_existing_eq_true_iff (db : DB) (cid : Nat) (email : Str) :
    check_existing_booking db cid email = true
      ↔ ∃ b ∈ db.bookings, b.class_id = cid ∧ b.client_email = email := by
  unfold check_existing_booking
  simp

lemma classes_create_booking_route (db : DB) (now : Int) (data : BookingCreate) :
    (create_booking_route db now data).2.classes = db.classes := by
  unfold create_booking_route
  cases get_class_by_id db data.class_id with
  | none => rfl
  | some c =>
    dsimp only
    split_ifs <;> rfl

theorem inv_step (db : DB) (now : Int) (data : BookingCreate) (h : Inv db) :
    Inv (create_booking_route db now data).2 := by
  unfold create_booking_route
  cases hc : get_class_by_id db data.class_id with
  | none => exact h
  | some c =>
    dsimp only
    split_ifs with hpast hfull hdup
    · exact h
    · exact h
    · exact h
    · obtain ⟨hcmem, hcid⟩ := get_class_by_id_some hc
      have hcount : countBookingsFor db.bookings c.id < c.total_slots := by
        unfold available_slots at hfull
        omega
      have hnew : ∀ b ∈ db.bookings,
          ¬(b.class_id = data.class_id ∧ b.client_email = pyLower data.client_email) := by
        intro b hb hcontra
        exact hdup ((check_existing_eq_true_iff db data.class_id
          (pyLower data.client_email)).mpr ⟨b, hb, hcontra⟩)
      refine ⟨?_, ?_, ?_, ?_⟩
      · exact h.nodup_ids
      · intro c' hc'
        simp only [crud_create_booking] at hc' ⊢
        rw [countBookingsFor_append]
        by_cases hid : (mkBookingRow db
            { data with client_email := pyLower data.client_email } now).class_id = c'.id
        · have hceq : c' = c := by
            apply List.inj_on_of_nodup_map h.nodup_ids hc' hcmem
            simp only [mkBookingRow] at hid
            rw [hcid, hid]
          rw [if_pos hid, hceq]
          omega
        · rw [if_neg hid]
          simpa using h.capacity c' hc'
      · intro b hb
        simp only [crud_create_booking, List.mem_append, List.mem_singleton] at hb
        rcases hb with hb | hb
        · exact h.emails_norm b hb
        · rw [hb]
          simp only [mkBookingRow]
          exact pyLower_idem _
      · simp only [crud_create_booking]
        rw [List.pairwise_append]
        refine ⟨h.unique_pair, List.pairwise_singleton _ _, ?_⟩
        intro b1 hb1 b2 hb2
        simp only [List.mem_singleton] at hb2
        rw [hb2]
        simp only [mkBookingRow]
        exact hnew b1 hb1

theorem inv_of_reachable {db : DB} (h : Reachable db) : Inv db := by
  induction h with
  | init classes hids =>
    refine ⟨hids, ?_, ?_, ?_⟩
    · intro c _
      simp [countBookingsFor]
    · intro b hb
      simp at hb
    · exact List.Pairwise.nil
  | step db now data _ ih => exact inv_step db now data ih

/-! ## Claims -/

/-- C1: Capacity invariant — at every state reachable by sequential runs of
the create-booking workflow, every class has at most `total_slots` bookings
referencing it; equivalently its `available_slots` is never negative. -/
theorem capacity_invariant {db : DB} (h : Reachable db) :
    ∀ c ∈ db.classes,
      countBookingsFor db.bookings c.id ≤ c.total_slots ∧ 0 ≤ available_slots db c := by
  intro c hc
  have hcap := (inv_of_reachable h).capacity c hc
  refine ⟨hcap, ?_⟩
  unfold available_slots
  omega

/-- C1 witness: after one successful booking against the seeded two-slot
catalog, the capacity bound holds concretely. -/
theorem capacity_invariant_witness :
    countBookingsFor demoDB1.bookings demoClass1.id ≤ demoClass1.total_slots ∧
      0 ≤ available_slots demoDB1 demoClass1 :=
  capacity_invariant
    (Reachable.step demoDB 0 demoData (Reachable.init [demoClass1] (by decide)))
    demoClass1 (by decide)

/-- C3: Atomicity — whenever the create-booking workflow does not return a
created booking (class not found, class already started, fully booked, or
duplicate), the persistent state after the call equals the state before. -/
theorem error_paths_no_side_effect (db : DB) (now : Int) (data : BookingCreate)
    (h : (create_booking_route db now data).1.isCreated = false) :
    (create_booking_route db now data).2 = db := by
  revert h
  unfold create_booking_route
  cases get_class_by_id db data.class_id with
  | none => intro _; rfl
  | some c =>
    dsimp only
    split_ifs <;> intro h
    · rfl
    · rfl
    · rfl
    · simp [BookResult.isCreated] at h

/-- C3 witness: booking a nonexistent class id leaves the store unchanged. -/
theorem error_paths_no_side_effect_witness :
    (create_booking_route demoDB 0 ⟨9999, [74], emailAB⟩).1.isCreated = false ∧
      (create_booking_route demoDB 0 ⟨9999, [74], emailAB⟩).2 = demoDB :=
  ⟨by decide, error_paths_no_side_effect demoDB 0 ⟨9999, [74], emailAB⟩ (by decide)⟩

/-- C4 counterexample: the code compares `datetime_utc < utcnow()` strictly,
so a class scheduled exactly at the current instant (demoClass1 at instant
100, request at instant 100) is NOT rejected with InvalidState — the booking
is created, contradicting the claim that scheduled instant ≤ now fails. -/
theorem boundary_class_accepted :
    (create_booking_route demoDB 100 demoData).1.isCreated = true ∧
      (create_booking_route demoDB 100 demoData).1 ≠ BookResult.invalidState := by
  decide

/-- C4 (amended): for every existing class whose scheduled instant is
STRICTLY BEFORE now, the workflow fails with InvalidState regardless of
capacity or duplicate status (the later gates are never consulted), with no
side effect; a class scheduled exactly at the current instant is not
rejected by this gate. -/
theorem past_class_rejected (db : DB) (now : Int) (data : BookingCreate)
    (c : FitnessClass) (h1 : get_class_by_id db data.class_id = some c)
    (h2 : c.datetime_utc < now) :
    create_booking_route db now data = (BookResult.invalidState, db) := by
  unfold create_booking_route
  rw [h1]
  dsimp only
  rw [if_pos h2]

/-- C4 witness: a past class that is also fully booked and already booked by
the same email still fails with InvalidState (precedence over Conflict). -/
theorem past_class_rejected_witness :
    create_booking_route pastDB 10 demoData = (BookResult.invalidState, pastDB) :=
  past_class_rejected pastDB 10 demoData ⟨1, [89], [73], 0, 0⟩ (by decide) (by decide)

/-- C9: `parse` correctness — an explicit offset is respected (the instant is
the wall-clock value minus the offset), a trailing Z is read as UTC, and a
value with no zone information is interpreted as Asia/Kolkata (UTC+05:30)
wall-clock and converted to the UTC instant. -/
theorem parse_ist_string_correct (wall m : Int) :
    parse_ist_string wall (TzInfo.offsetMin m) = wall - m ∧
      parse_ist_string wall TzInfo.z = wall ∧
      parse_ist_string wall TzInfo.naive = wall - IST_OFFSET_MIN := by
  refine ⟨rfl, ?_, rfl⟩
  show wall - 0 = wall
  omega

/-- C5: listUpcoming correctness — for every skip and 1 ≤ limit ≤ 100, the
returned page contains only classes scheduled strictly after now, is sorted
ascending by scheduled instant, and is exactly the offset/limit window of the
sorted filtered catalog. -/
theorem list_upcoming_correct (db : DB) (now : Int) (skip limit : Nat)
    (_hlim1 : 1 ≤ limit) (_hlim2 : limit ≤ 100) :
    (∀ c ∈ get_upcoming_classes db now skip limit, now < c.datetime_utc) ∧
      List.Pairwise classTimeLe (get_upcoming_classes db now skip limit) ∧
      get_upcoming_classes db now skip limit
        = (((db.classes.filter (fun c => decide (now < c.datetime_utc))).insertionSort
            classTimeLe).drop skip).take limit := by
  refine ⟨?_, ?_, rfl⟩
  · intro c hc
    unfold get_upcoming_classes at hc
    have hmem := List.mem_of_mem_drop (List.mem_of_mem_take hc)
    rw [List.mem_insertionSort] at hmem
    have := (List.mem_filter.mp hmem).2
    simpa using this
  · have hs : List.Pairwise classTimeLe
        ((db.classes.filter (fun c => decide (now < c.datetime_utc))).insertionSort
          classTimeLe) :=
      List.sorted_insertionSort classTimeLe _
    exact List.Pairwise.sublist ((List.take_sublist _ _).trans (List.drop_sublist _ _)) hs

/-- C5 witness: with limit=1 over a catalog of two upcoming classes, exactly
the earliest-scheduled one is returned, and it is upcoming. -/
theorem list_upcoming_correct_witness :
    get_upcoming_classes twoDB 0 0 1 = [demoClass2] ∧
      (∀ c ∈ get_upcoming_classes twoDB 0 0 1, (0 : Int) < c.datetime_utc) :=
  ⟨by decide, (list_upcoming_correct twoDB 0 0 1 (by decide) (by decide)).1⟩

/-- C8: in every list response the `total` field is the number of items in
the returned page, not a full-table count: `GET /classes` returns
`total = len(classes)`, `GET /bookings` returns `total = len(bookings)`, and
there is a store where `total` differs from the count of all matching rows. -/
theorem total_is_page_length :
    (∀ db now skip limit, (get_classes_route db now skip limit).total
        = (get_classes_route db now skip limit).classes.length) ∧
      (∀ db email r, get_bookings_route db email = Except.ok r
        → r.total = r.bookings.length) ∧
      ∃ db now skip limit, (get_classes_route db now skip limit).total
        ≠ (db.classes.filter (fun c => decide (now < c.datetime_utc))).length := by
  refine ⟨fun _ _ _ _ => rfl, ?_, ⟨twoDB, 0, 0, 1, by decide⟩⟩
  intro db email r h
  revert h
  unfold get_bookings_route
  cases validate_email_query email with
  | error f => intro h; cases h
  | ok e =>
    intro h
    cases h
    rfl

/-- C8 witness: the GET /bookings page for "a@b.com" against the booked store
has `total` equal to its list length. -/
theorem total_is_page_length_witness : demoResp.total = demoResp.bookings.length :=
  total_is_page_length.2.1 demoDB1 (some emailab) demoResp (by rfl)

/-- C2 counterexample: with a single-slot class, the second sequential attempt
for the same (class, normalized email) pair fails with Conflict "fully
booked" — the capacity gate (step 3) precedes the duplicate gate (step 4) —
not with "already booked" as the claim states. -/
theorem duplicate_pair_full_class :
    (create_booking_route capDB1 0 demoData).1 = BookResult.fullyBooked ∧
      BookResult.fullyBooked ≠ BookResult.alreadyBooked ∧
      ∃ b ∈ capDB1.bookings, b.class_id = demoData.class_id ∧
        b.client_email = pyLower demoData.client_email := by
  decide

/-- C2 (amended): at every reachable state at most one booking exists per
(class_id, normalized client_email) pair, and a second sequential attempt for
an already-booked pair inserts nothing and is never a success — it fails with
Conflict "already booked" whenever the class is still upcoming and has
available slots (otherwise an earlier gate such as "fully booked" answers). -/
theorem duplicate_invariant {db : DB} (h : Reachable db) :
    db.bookings.Pairwise (fun b1 b2 =>
      ¬(b1.class_id = b2.class_id ∧ pyLower b1.client_email = pyLower b2.client_email)) ∧
      ∀ now data,
        (∃ b ∈ db.bookings, b.class_id = data.class_id ∧
          b.client_email = pyLower data.client_email) →
        ((create_booking_route db now data).2 = db ∧
          (create_booking_route db now data).1.isCreated = false ∧
          ∀ c, get_class_by_id db data.class_id = some c → ¬c.datetime_utc < now →
            0 < available_slots db c →
            (create_booking_route db now data).1 = BookResult.alreadyBooked) := by
  have hinv := inv_of_reachable h
  constructor
  · refine List.Pairwise.imp_of_mem ?_ hinv.unique_pair
    intro b1 b2 h1 h2 hR hcontra
    apply hR
    refine ⟨hcontra.1, ?_⟩
    calc b1.client_email = pyLower b1.client_email := (hinv.emails_norm b1 h1).symm
      _ = pyLower b2.client_email := hcontra.2
      _ = b2.client_email := hinv.emails_norm b2 h2
  · intro now data hex
    obtain ⟨b, hb, hbc, hbe⟩ := hex
    have hcheck : check_existing_booking db data.class_id (pyLower data.client_email) = true :=
      (check_existing_eq_true_iff _ _ _).mpr ⟨b, hb, hbc, hbe⟩
    unfold create_booking_route
    cases hc : get_class_by_id db data.class_id with
    | none =>
      refine ⟨rfl, rfl, ?_⟩
      intro c hcc
      cases hcc
    | some c =>
      dsimp only
      split_ifs with hpast hfull
      · refine ⟨rfl, rfl, ?_⟩
        intro c' hcc hnp _
        injection hcc with hcc'
        subst hcc'
        exact absurd hpast hnp
      · refine ⟨rfl, rfl, ?_⟩
        intro c' hcc _ hpos
        injection hcc with hcc'
        subst hcc'
        exact absurd hpos (not_lt.mpr hfull)
      · exact ⟨rfl, rfl, fun c' _ _ _ => rfl⟩

/-- C2 witness: against the two-slot class already booked by "A@B.com", a
second attempt for the same pair yields Conflict "already booked" and leaves
the store unchanged. -/
theorem duplicate_invariant_witness :
    (create_booking_route demoDB1 0 demoData).1 = BookResult.alreadyBooked ∧
      (create_booking_route demoDB1 0 demoData).2 = demoDB1 := by
  have h := duplicate_invariant
    (Reachable.step demoDB 0 demoData (Reachable.init [demoClass1] (by decide)))
  have h2 := h.2 0 demoData (by decide)
  exact ⟨h2.2.2 demoClass1 (by decide) (by decide) (by decide), h2.1⟩

/-- Inversion of a successful run: the returned row stores the lowercased
email and the new state is the old one plus that row. -/
lemma created_inversion {db : DB} {now : Int} {data : BookingCreate} {bk : Booking} {db' : DB}
    (h : create_booking_route db now data = (BookResult.created bk, db')) :
    bk = mkBookingRow db { data with client_email := pyLower data.client_email } now ∧
      db' = { db with bookings := db.bookings ++ [bk] } := by
  revert h
  unfold create_booking_route
  cases get_class_by_id db data.class_id with
  | none =>
    intro h
    simp at h
  | some c =>
    dsimp only
    split_ifs <;> intro h
    · simp at h
    · simp at h
    · simp at h
    · injection h with h1 h2
      injection h1 with h1'
      refine ⟨h1'.symm, ?_⟩
      rw [← h2, ← h1']
      rfl

/-- C6: email normalization round-trip — a successful booking stores the
lowercased client email, and GET /bookings queried with any string whose
lowercase form agrees returns it (for an email with no surrounding
whitespace, as email syntax guarantees). -/
theorem email_normalization_roundtrip (db : DB) (now : Int) (data : BookingCreate)
    (bk : Booking) (db' : DB) (e' : Str)
    (hcreate : create_booking_route db now data = (BookResult.created bk, db'))
    (hlow : pyLower e' = pyLower data.client_email)
    (hstrip : pyStrip data.client_email = data.client_email)
    (hne : data.client_email ≠ []) :
    bk.client_email = pyLower data.client_email ∧
      ∃ resp, get_bookings_route db' (some e') = Except.ok resp ∧ bk ∈ resp.bookings := by
  obtain ⟨hbk, hdb'⟩ := created_inversion hcreate
  have hbkmail : bk.client_email = pyLower data.client_email := by
    rw [hbk]
    rfl
  refine ⟨hbkmail, ?_⟩
  have hkey : pyLower (pyStrip e') = pyLower data.client_email := by
    calc pyLower (pyStrip e') = pyStrip (pyLower e') := (pyStrip_pyLower e').symm
      _ = pyStrip (pyLower data.client_email) := by rw [hlow]
      _ = pyLower (pyStrip data.client_email) := pyStrip_pyLower _
      _ = pyLower data.client_email := by rw [hstrip]
  have he' : e' ≠ [] := by
    intro h0
    apply hne
    rw [h0] at hlow
    have : pyLower data.client_email = [] := hlow.symm
    rwa [pyLower_eq_nil_iff] at this
  have hse' : pyStrip e' ≠ [] := by
    intro h0
    apply hne
    have h1 : pyLower (pyStrip e') = [] := by rw [h0]; rfl
    rw [hkey] at h1
    rwa [pyLower_eq_nil_iff] at h1
  have hval : validate_email_query (some e') = Except.ok (pyLower (pyStrip e')) := by
    simp only [validate_email_query]
    rw [if_neg (not_or.mpr ⟨he', hse'⟩)]
  refine ⟨⟨(get_bookings_by_email db' (pyLower (pyLower (pyStrip e')))).length,
    get_bookings_by_email db' (pyLower (pyLower (pyStrip e')))⟩, ?_, ?_⟩
  · unfold get_bookings_route
    rw [hval]
  · have hkey2 : pyLower (pyLower (pyStrip e')) = pyLower data.client_email := by
      rw [hkey, pyLower_idem]
    rw [hkey2]
    unfold get_bookings_by_email
    rw [List.mem_insertionSort, List.mem_filter]
    refine ⟨?_, by simp [hbkmail]⟩
    rw [hdb']
    simp

/-- C6 witness: booking with "A@B.com" stores "a@b.com", and querying with
"a@b.com" returns that booking. -/
theorem email_normalization_roundtrip_witness :
    demoBooking.client_email = pyLower emailAB ∧
      ∃ resp, get_bookings_route demoDB1 (some emailab) = Except.ok resp ∧
        demoBooking ∈ resp.bookings :=
  email_normalization_roundtrip demoDB 0 demoData demoBooking demoDB1 emailab
    (by decide) (by decide) (by decide) (by decide)

/-- C7 counterexample: an email parameter that is present but empty is
rejected by `validate_email_query` with 400 Bad Request, not with a 422
validation error as the claim states. -/
theorem empty_email_param_is_400 :
    validate_email_query (some []) = Except.error HttpFail.badRequest400 ∧
      HttpFail.badRequest400 ≠ HttpFail.validationError422 :=
  ⟨rfl, by decide⟩

/-- C7 (amended): a missing email parameter fails with a 422 validation
error (FastAPI's required-parameter check), a present but empty or
whitespace-only email fails with 400 Bad Request, and an email with no
matching bookings succeeds with a valid empty list. -/
theorem email_query_validation :
    validate_email_query none = Except.error HttpFail.validationError422 ∧
      (∀ e : Str, (e = [] ∨ pyStrip e = []) →
        validate_email_query (some e) = Except.error HttpFail.badRequest400) ∧
      (∀ (db : DB) (e : Str), ¬(e = [] ∨ pyStrip e = []) →
        (∀ b ∈ db.bookings, b.client_email ≠ pyLower (pyLower (pyStrip e))) →
        get_bookings_route db (some e) = Except.ok ⟨0, []⟩) := by
  refine ⟨rfl, ?_, ?_⟩
  · intro e he
    simp only [validate_email_query]
    rw [if_pos he]
  · intro db e he hnone
    have hval : validate_email_query (some e) = Except.ok (pyLower (pyStrip e)) := by
      simp only [validate_email_query]
      rw [if_neg he]
    have hemp : get_bookings_by_email db (pyLower (pyLower (pyStrip e))) = [] := by
      unfold get_bookings_by_email
      have hfil : db.bookings.filter
          (fun b => decide (b.client_email = pyLower (pyLower (pyStrip e)))) = [] := by
        rw [List.filter_eq_nil_iff]
        intro b hb
        simpa using hnone b hb
      rw [hfil]
      rfl
    unfold get_bookings_route
    rw [hval]
    dsimp only
    rw [hemp]
    rfl

/-- C7 witness: a whitespace-only email parameter is rejected with 400. -/
theorem email_query_validation_witness :
    validate_email_query (some [32, 32]) = Except.error HttpFail.badRequest400 :=
  email_query_validation.2.1 [32, 32] (by decide)

/-- C10: the GET /bookings email parameter is stripped of surrounding
whitespace (then lowercased) before the ledger is queried, so querying with
a whitespace-padded email behaves exactly like querying with
`strip(lower(email))`; no stripping is applied to the email stored at
booking creation — it is stored lowercased as given. -/
theorem email_query_strip_equiv (db : DB) (ws1 ws2 e : Str)
    (h1 : ∀ c ∈ ws1, isPySpace c = true) (h2 : ∀ c ∈ ws2, isPySpace c = true) :
    get_bookings_route db (some (ws1 ++ e ++ ws2))
      = get_bookings_route db (some (pyStrip (pyLower e))) ∧
      (∀ now data bk db', create_booking_route db now data = (BookResult.created bk, db') →
        bk.client_email = pyLower data.client_email) := by
  constructor
  · have hpad : pyStrip (ws1 ++ e ++ ws2) = pyStrip e := pyStrip_pad ws1 ws2 e h1 h2
    have hyy : pyStrip (pyStrip (pyLower e)) = pyStrip (pyLower e) := pyStrip_idem _
    by_cases hse : pyStrip e = []
    · have hL : validate_email_query (some (ws1 ++ e ++ ws2))
          = Except.error HttpFail.badRequest400 := by
        simp only [validate_email_query]
        rw [if_pos (Or.inr (hpad.trans hse))]
      have hRin : pyStrip (pyLower e) = [] := by
        rw [pyStrip_pyLower, hse]
        rfl
      have hR : validate_email_query (some (pyStrip (pyLower e)))
          = Except.error HttpFail.badRequest400 := by
        simp only [validate_email_query]
        rw [if_pos (Or.inl hRin)]
      unfold get_bookings_route
      rw [hL, hR]
    · have hx : ws1 ++ e ++ ws2 ≠ [] := by
        intro h0
        apply hse
        rw [← hpad, h0]
        rfl
      have hsx : pyStrip (ws1 ++ e ++ ws2) ≠ [] := by
        rw [hpad]
        exact hse
      have hy : pyStrip (pyLower e) ≠ [] := by
        rw [pyStrip_pyLower]
        intro h0
        rw [pyLower_eq_nil_iff] at h0
        exact hse h0
      have hsy : pyStrip (pyStrip (pyLower e)) ≠ [] := by
        rw [hyy]
        exact hy
      have hvalL : validate_email_query (some (ws1 ++ e ++ ws2))
          = Except.ok (pyLower (pyStrip (ws1 ++ e ++ ws2))) := by
        simp only [validate_email_query]
        rw [if_neg (not_or.mpr ⟨hx, hsx⟩)]
      have hvalR : validate_email_query (some (pyStrip (pyLower e)))
          = Except.ok (pyLower (pyStrip (pyStrip (pyLower e)))) := by
        simp only [validate_email_query]
        rw [if_neg (not_or.mpr ⟨hy, hsy⟩)]
      have hkeys : pyLower (pyStrip (ws1 ++ e ++ ws2))
          = pyLower (pyStrip (pyStrip (pyLower e))) := by
        rw [hpad, hyy, pyStrip_pyLower, pyLower_idem]
      unfold get_bookings_route
      rw [hvalL, hvalR, hkeys]
  · intro now data bk db' hcr
    rw [(created_inversion hcr).1]
    rfl

/-- C10 witness: querying with " a@b.com " equals querying with the trimmed
lowercase form. -/
theorem email_query_strip_equiv_witness :
    get_bookings_route demoDB1 (some ([32] ++ emailab ++ [32]))
      = get_bookings_route demoDB1 (some (pyStrip (pyLower emailab))) :=
  (email_query_strip_equiv demoDB1 [32] [32] emailab (by decide) (by decide)).1

end FitnessBooking
